import Mathlib

/-!
# Verification of the slack-multireact emoji subsystem

Shallow embedding of the emoji parsing, validation, caching, persistence and
reaction-application logic of the `slack-multireact` repository
(`src/multi_reaction_add/internals.py`, `src/multi_reaction_add/handlers.py`,
`src/main.py`), together with proofs settling the frozen claims about it.

Strings from the Python side are modelled as `List Char`; Python lists of
strings as `List (List Char)` (or `List String` where the elements are
opaque).  Python integer division `//` is `Nat` division; Python float
division is `ℚ` division.
-/

namespace MultiReact

/-! ## Character classes of the emoji regex

`internals.py` line 138 scans the message with the regular expression
`:[a-z0-9-_\+']+(?:::skin\-tone\-\d+)?:`.  The character class
`[a-z0-9-_\+']` contains the ASCII ranges `a`-`z` and `0`-`9` and the
literal characters `-`, `_`, `+`, `'`.  `\d` is modelled as the ASCII
digits (the inputs of interest are ASCII). -/

def emojiChar (c : Char) : Bool :=
  ('a' ≤ c && c ≤ 'z') || ('0' ≤ c && c ≤ '9') || c == '-' || c == '_' || c == '+' || c == '\''

def digitChar (c : Char) : Bool :=
  '0' ≤ c && c ≤ '9'

/-- The literal `skin-tone-` appearing in the regex. -/
def skinToneChars : List Char := "skin-tone-".toList

/-- Match a literal sequence of characters at the head of a list, returning
the remainder on success (the way a regex engine consumes a literal). -/
def matchLit : List Char → List Char → Option (List Char)
  | [], l => some l
  | _ :: _, [] => none
  | c :: cs, x :: xs => if x == c then matchLit cs xs else none

/-- The final `:`-step of the regex when the optional modifier group is not
taken: the emoji is `:tok:` and scanning resumes right after it. -/
def plainColonTail (tok rest1 : List Char) : Option (List Char × List Char) :=
  match rest1 with
  | y :: r2 => if y = ':' then some (':' :: tok ++ [':'], r2) else none
  | [] => none

/-- Embeds one match attempt of `:[a-z0-9-_\+']+(?:::skin\-tone\-\d+)?:`
(`internals.py` line 138) at the start of `l`.  On success, returns the
matched substring and the remainder of the text.

The regex engine's backtracking degenerates to maximal munch here: a
shorter-than-maximal `[a-z0-9-_\+']+` (resp. `\d+`) run leaves a class
character (never `:`) as the next character, so no shorter run can ever
complete a match; the greedy optional group is tried before the plain
`:` alternative, exactly as below. -/
def matchEmojiAt (l : List Char) : Option (List Char × List Char) :=
  match l with
  | [] => none
  | c :: rest =>
    if c = ':' then
      let tok := rest.takeWhile emojiChar
      let rest1 := rest.dropWhile emojiChar
      if tok.isEmpty then none
      else
        match matchLit (':' :: ':' :: skinToneChars) rest1 with
        | some r1 =>
          let ds := r1.takeWhile digitChar
          if ds.isEmpty then plainColonTail tok rest1
          else
            match r1.dropWhile digitChar with
            | y :: r3 =>
              if y = ':' then
                some (':' :: tok ++ (':' :: ':' :: skinToneChars) ++ ds ++ [':'], r3)
              else plainColonTail tok rest1
            | [] => plainColonTail tok rest1
        | none => plainColonTail tok rest1
    else none

/-! ## The specification-side scanner

The claim describes `parse` as collecting, left to right, all substrings of
the shape `:token:` or `:token::modifier:`.  `specMatchAt` matches one such
shape at the start of the text, parameterised by the grammar of the
`::modifier` section; `modAny` is the claim's modifier grammar (any
non-empty token over the emoji character set), `modSkin` is the grammar the
code actually uses (`skin-tone-` followed by digits). -/

/-- Modifier section per the claim's words: `::` followed by a non-empty
token over the emoji character set.  Returns the consumed section and the
remainder. -/
def modAny (l : List Char) : Option (List Char × List Char) :=
  match l with
  | ':' :: ':' :: r =>
    let m := r.takeWhile emojiChar
    if m.isEmpty then none
    else some (':' :: ':' :: m, r.dropWhile emojiChar)
  | _ => none

/-- Modifier section as the source restricts it: `::skin-tone-` followed by
one or more digits. -/
def modSkin (l : List Char) : Option (List Char × List Char) :=
  if (':' :: ':' :: skinToneChars).isPrefixOf l then
    let r := l.drop 12
    let ds := r.takeWhile digitChar
    if ds.isEmpty then none
    else some (':' :: ':' :: skinToneChars ++ ds, r.dropWhile digitChar)
  else none

/-- One match attempt of the shape `:token:` / `:token::modifier:` at the
start of `l`, preferring the longer modifier form, with the modifier
grammar `modG` a parameter. -/
def specMatchAt (modG : List Char → Option (List Char × List Char)) (l : List Char) :
    Option (List Char × List Char) :=
  match l with
  | [] => none
  | c :: rest =>
    if c = ':' then
      let tok := rest.takeWhile emojiChar
      let rest1 := rest.dropWhile emojiChar
      if tok.isEmpty then none
      else
        match modG rest1 with
        | some (msec, r2) =>
          match r2 with
          | y :: r3 => if y = ':' then some (':' :: tok ++ msec ++ [':'], r3)
                       else plainColonTail tok rest1
          | [] => plainColonTail tok rest1
        | none => plainColonTail tok rest1
    else none

/-! ## Scanning the whole text (`re.findall`) -/

/-- `re.findall` semantics: scan left to right, emit each non-overlapping
match and resume right after it, otherwise advance one character.  Fuel is
the initial text length: every step consumes at least one character. -/
def findallF : Nat → List Char → List (List Char)
  | 0, _ => []
  | _ + 1, [] => []
  | n + 1, c :: rest =>
    match matchEmojiAt (c :: rest) with
    | some (m, r) => m :: findallF n r
    | none => findallF n rest

/-- The claim-side scan: identical left-to-right collection of all matches
of the shape, with the modifier grammar a parameter. -/
def specScanF (modG : List Char → Option (List Char × List Char)) :
    Nat → List Char → List (List Char)
  | 0, _ => []
  | _ + 1, [] => []
  | n + 1, c :: rest =>
    match specMatchAt modG (c :: rest) with
    | some (m, r) => m :: specScanF modG n r
    | none => specScanF modG n rest

/-! ## De-duplication and stripping -/

/-- `list(dict.fromkeys(xs))` (`internals.py` line 140): remove duplicates
keeping only the first occurrence of each element, in its original
position.  `seen` is the set of keys already inserted. -/
def dedupAux [DecidableEq α] (seen : List α) : List α → List α
  | [] => []
  | a :: l => if a ∈ seen then dedupAux seen l else a :: dedupAux (a :: seen) l

def dedupFirst [DecidableEq α] (l : List α) : List α := dedupAux [] l

/-- `r[1:-1]` (`internals.py` line 144): strip the enclosing colons. -/
def stripColons (m : List Char) : List Char := (m.drop 1).dropLast

/-- The parser: `re.findall` over the text, duplicates removed keeping first
occurrences, enclosing colons stripped (`internals.py` lines 137-144). -/
def parseChars (text : List Char) : List (List Char) :=
  (dedupFirst (findallF text.length text)).map stripColons

/-- The claim's reference parser, with the modifier grammar a parameter. -/
def specParse (modG : List Char → Option (List Char × List Char)) (text : List Char) :
    List (List Char) :=
  (dedupFirst (specScanF modG text.length text)).map stripColons

/-! ## Reaction validation (`internals.py` lines 144-164) -/

/-- Python's `"::" in r`: does the string contain two consecutive colons? -/
def hasDoubleColon : List Char → Bool
  | ':' :: ':' :: _ => true
  | _ :: rest => hasDoubleColon rest
  | [] => false

/-- `r[:r.find("::")]` for a string that contains `::`: the prefix before
the first occurrence of `::`.  (The code only applies this to reactions
known to contain `::`, where `find` cannot return `-1`.) -/
def baseOf : List Char → List Char
  | ':' :: ':' :: _ => []
  | c :: rest => c :: baseOf rest
  | [] => []

/-- `internals.py` lines 144-164 minus the cache update: partition the
candidates into simple reactions and reactions with a modifier, keep the
simple ones that are in the vocabulary and the modified ones whose base is,
then re-emit the candidates in original order filtered by validity. -/
def validate (orig allEmojis : List (List Char)) : List (List Char) :=
  let simpleReactions := orig.filter (fun r => !hasDoubleColon r)
  let reactionsWithModifier := orig.filter (fun r => hasDoubleColon r)
  let validReactions :=
    simpleReactions.filter (fun r => decide (r ∈ allEmojis)) ++
      reactionsWithModifier.filter (fun r => decide (baseOf r ∈ allEmojis))
  orig.filter (fun r => decide (r ∈ validReactions))

/-- The pure part of `EmojiOperator.get_valid_reactions`: parse the text,
then validate the candidates against the vocabulary snapshot. -/
def getValidReactions (snapshot : List (List Char)) (text : List Char) : List (List Char) :=
  validate (parseChars text) snapshot

/-! ## Whitespace joining and splitting of the persisted value -/

/-- `" ".join(xs)` (`handlers.py` line 122 and 131). -/
def joinSpace : List (List Char) → List Char
  | [] => []
  | [w] => w
  | w :: ws => w ++ ' ' :: joinSpace ws

/-- `s.split(" ")` with a one-character separator (`handlers.py` lines 131
and 179): splits at every space, so `""` yields `[""]` and consecutive
spaces yield empty fields, exactly as in Python. -/
def splitSpace : List Char → List (List Char)
  | [] => [[]]
  | c :: rest =>
    if c = ' ' then [] :: splitSpace rest
    else
      match splitSpace rest with
      | w :: ws => (c :: w) :: ws
      | [] => [[c]]

/-- `" ".join([f":{r}:" for r in reactions.split(" ")])`
(`handlers.py` line 131): the display rendering of a stored value. -/
def renderDisplay (content : List Char) : List Char :=
  joinSpace ((splitSpace content).map (fun r => ':' :: r ++ [':']))

/-- Python `str.strip()` whitespace characters (ASCII ones). -/
def isPySpace (c : Char) : Bool :=
  c == ' ' || c == '\t' || c == '\n' || c == '\r' || c == '\x0b' || c == '\x0c'

/-- Python `s.strip()`. -/
def pyStrip (s : List Char) : List Char :=
  ((s.dropWhile isPySpace).reverse.dropWhile isPySpace).reverse

/-! ## The save-or-display command handler (`handlers.py` lines 74-139)

The store is the user's blob in the bucket: `none` when the blob does not
exist, `some content` when it does.  The snapshot stands for the emoji
vocabulary in effect during validation. -/

inductive CmdReply
  | tooMany
  | invalid
  | savedOk
  | current (rendered : List Char)
  | noneSet
deriving DecidableEq

/-- The display branch (`handlers.py` lines 128-139). -/
def displayReactions (store : Option (List Char)) : Option (List Char) × CmdReply :=
  match store with
  | some content => (store, CmdReply.current (renderDisplay content))
  | none => (store, CmdReply.noneSet)

/-- `save_or_display_reactions` (`handlers.py` lines 105-139): with text
whose `strip()` is non-empty, validate and either reject (>23 or 0
reactions, store untouched) or persist the space-joined list; otherwise
display the stored reactions. -/
def saveOrDisplay (snapshot : List (List Char)) (store : Option (List Char))
    (text : Option (List Char)) : Option (List Char) × CmdReply :=
  match text with
  | some t =>
    if (pyStrip t).isEmpty then displayReactions store
    else
      let reactions := getValidReactions snapshot t
      if 23 < reactions.length then (store, CmdReply.tooMany)
      else if reactions.length = 0 then (store, CmdReply.invalid)
      else (some (joinSpace reactions), CmdReply.savedOk)
  | none => displayReactions store

/-! ## The reaction diff (`handlers.py` lines 179-189) -/

/-- `list(set(a) - set(b))`: some list whose members are exactly the
elements of `a` not in `b`.  CPython's iteration order over a set is
unspecified; only the membership of this value is ever used (line 189
re-orders through `orig_reactions`), so it is modelled as the first-kept
de-duplication of the filtered list. -/
def pySetDiff [DecidableEq α] (a b : List α) : List α :=
  dedupFirst (a.filter (fun x => !decide (x ∈ b)))

/-- Lines 179-189 of `handlers.py`: `to_react = list(set(saved) - set(used))`
followed by `[r for r in orig_reactions if r in to_react]`. -/
def diffReactions [DecidableEq α] (saved used : List α) : List α :=
  let toReact := pySetDiff saved used
  saved.filter (fun r => decide (r ∈ toReact))

/-! ## The reaction-apply loops -/

/-- Outcome of one `reactions_add` call: success, the `already_reacted`
Slack error, or any other Slack API error. -/
inductive ApplyResult
  | ok
  | alreadyReacted
  | failed
deriving DecidableEq

/-- `await sleep((50+5)//60)` (`handlers.py` line 203): the pause after each
`reactions_add` call, in whole seconds.  Python `//` is floor division. -/
def tier3SleepHandlers : Nat := (50 + 5) / 60

/-- `TIER3_LIMIT_SEC = (50-5)/60` (`main.py` line 18): the legacy pause,
true division. -/
def tier3LimitSecLegacy : ℚ := (50 - 5) / 60

/-- Observable events of an apply loop run. -/
inductive ApplyEvent (α : Type)
  | callAdd (r : α)
  | logOk (r : α)
  | logErr (r : α)
  | sleepSec (n : Nat)
deriving DecidableEq

/-- The apply loop of the async handler (`handlers.py` lines 190-203): for
each reaction, call `reactions_add`; on success log it, on `SlackApiError`
(of any kind) log the exception; in both cases fall through the `finally`
sleep and continue with the next reaction. -/
def asyncApplyLoop (outcome : α → ApplyResult) : List α → List (ApplyEvent α)
  | [] => []
  | r :: rest =>
    (ApplyEvent.callAdd r ::
      (match outcome r with
       | ApplyResult.ok => [ApplyEvent.logOk r]
       | _ => [ApplyEvent.logErr r])) ++
      ApplyEvent.sleepSec tier3SleepHandlers :: asyncApplyLoop outcome rest

/-- The reactions for which a `reactions_add` call was issued, in order. -/
def callsOf : List (ApplyEvent α) → List α
  | [] => []
  | ApplyEvent.callAdd r :: es => r :: callsOf es
  | _ :: es => callsOf es

/-- The apply loop of the legacy handler (`main.py` lines 241-256): a
`SlackApiError` whose error is `already_reacted` is swallowed and the loop
continues, but any other `SlackApiError` is re-raised, aborting the
remaining iterations.  Returns the calls issued in order, and the reaction
whose failure was re-raised, if any. -/
def legacyApplyLoop (outcome : α → ApplyResult) : List α → List α × Option α
  | [] => ([], none)
  | r :: rest =>
    match outcome r with
    | ApplyResult.failed => ([r], some r)
    | _ =>
      let (calls, err) := legacyApplyLoop outcome rest
      (r :: calls, err)

/-! ## The apply-to-message shortcut handler (`handlers.py` lines 164-230) -/

/-- Trace of one `add_reactions` shortcut run: whether the "no reactions
set" dialog was opened, how many `reactions_get` queries were issued, and
the apply-loop events. -/
structure ShortcutTrace where
  openedDialog : Bool
  queryCalls : Nat
  applyEvents : List (ApplyEvent (List Char))
deriving DecidableEq

/-- `add_reactions` (`handlers.py` lines 174-230): `reactions` is `None`
when the blob does not exist, otherwise the downloaded text; the truthiness
test `if reactions:` sends both `None` and the empty string to the dialog
branch.  Otherwise the saved list is split on spaces, the user's existing
reactions on the message (`used`) are queried, the diff is computed and the
apply loop runs over it. -/
def addReactionsOp (outcome : List Char → ApplyResult) (used : List (List Char))
    (store : Option (List Char)) : ShortcutTrace :=
  match store with
  | some s =>
    if s.isEmpty then
      { openedDialog := true, queryCalls := 0, applyEvents := [] }
    else
      let saved := splitSpace s
      let toReact := diffReactions saved used
      { openedDialog := false, queryCalls := 1, applyEvents := asyncApplyLoop outcome toReact }
  | none => { openedDialog := true, queryCalls := 0, applyEvents := [] }

/-! ## The emoji vocabulary cache (`internals.py` lines 66-84 and 154-158) -/

/-- The mutable state of `EmojiOperator`: the vocabulary snapshot
(`_all_emojis`), whether the background update task exists and is not done
(`_emoji_task`), and — as ghost data needed to state age-based properties —
the time at which the snapshot was last replaced. -/
structure EmojiCacheState where
  allEmojis : List String
  taskAlive : Bool
  lastFetch : Nat
deriving DecidableEq

/-- Lines 154-158 of `internals.py`, the read side of the cache inside
`get_valid_reactions`: `if not self._emoji_task or self._emoji_task.done():`
synchronously fetch (`fetched` is the result `_get_reactions_in_team` would
return at time `now`), replace the snapshot wholesale and start the
background task; otherwise answer from the existing snapshot with no fetch.
Returns (vocabulary used, whether a synchronous fetch happened, new state). -/
def getVocabulary (now : Nat) (fetched : List String) (s : EmojiCacheState) :
    List String × Bool × EmojiCacheState :=
  if s.taskAlive then (s.allEmojis, false, s)
  else (fetched, true, { allEmojis := fetched, taskAlive := true, lastFetch := now })

/-- The claim's (and the spec's) read-side guard, from its words: fetch
exactly when no snapshot exists or the snapshot's age exceeds the 60-second
TTL. -/
def shouldFetchSpec (now : Nat) (s : EmojiCacheState) : Bool :=
  s.allEmojis.isEmpty || decide (60 < now - s.lastFetch)

/-- Result of the secondary (third-party standard-emoji) fetch in
`_get_reactions_in_team`: a 200 response with a parsed body; a non-200
status (handled by the `else` branch, only logged); a
`ClientConnectorError` or `ClientResponseError` (the only exception types
the `except` at line 115 names, caught and only logged); or any other
exception — an aiohttp/asyncio timeout error (`ServerTimeoutError`,
`asyncio.TimeoutError`, which are subclasses of neither caught type), a
different connection failure, a JSON decode error — which nothing catches
and which therefore propagates out of the refresh (`uncaught`, carrying the
exception). -/
inductive SecondaryFetch
  | ok (standard : List String)
  | badStatus
  | connError
  | uncaught (e : String)
deriving DecidableEq

/-- The `standard_emojis` list after the secondary block of
`_get_reactions_in_team` (`internals.py` lines 103-116) in the non-raising
cases: the fetched names on a 200 response, and the initial `[]` when the
status is not 200 or a caught exception type was raised (both only log). -/
def standardFrom : SecondaryFetch → List String
  | SecondaryFetch.ok l => l
  | _ => []

/-- `_get_reactions_in_team` (`internals.py` lines 99-118): the primary
`emoji_list` call yields the custom emoji names and the built-in category
names, or raises (modelled as `Except.error`, propagated — nothing catches
it); the secondary fetch is best-effort only for a non-200 status and for
the two caught exception types, while any other exception (e.g. a timeout)
propagates; the result is `list(set(custom + builtin + standard))`, whose
unspecified set order is modelled as first-kept de-duplication (only
membership is relied upon). -/
def getReactionsInTeam (primary : Except String (List String × List String))
    (secondary : SecondaryFetch) : Except String (List String) :=
  match primary with
  | Except.error e => Except.error e
  | Except.ok (custom, builtin) =>
      match secondary with
      | SecondaryFetch.uncaught e => Except.error e
      | s2 => Except.ok (dedupFirst (custom ++ builtin ++ standardFrom s2))

/-- The effect of one refresh attempt on the cache state
(`_update_emoji_list`, `internals.py` lines 74-84): on success the snapshot
is replaced wholesale; a `SlackApiError` is caught and logged and the
previous snapshot remains in effect. -/
def refreshSnapshot (s : EmojiCacheState) (now : Nat) (result : Except String (List String)) :
    EmojiCacheState :=
  match result with
  | Except.ok l => { s with allEmojis := l, lastFetch := now }
  | Except.error _ => s

/-! ## Supporting lemmas -/

theorem mem_dedupAux [DecidableEq α] (l : List α) (seen : List α) (x : α) :
    x ∈ dedupAux seen l ↔ x ∈ l ∧ x ∉ seen := by
  induction l generalizing seen with
  | nil => simp [dedupAux]
  | cons a t ih =>
    by_cases ha : a ∈ seen
    · by_cases hx : x = a
      · subst hx
        simp [dedupAux, ha, ih]
      · simp [dedupAux, ha, ih, hx]
    · by_cases hx : x = a
      · subst hx
        simp [dedupAux, ha, ih]
      · simp only [dedupAux, if_neg ha, List.mem_cons, ih, List.mem_cons]
        constructor
        · rintro (rfl | ⟨hxt, hxs⟩)
          · exact absurd rfl hx
          · exact ⟨Or.inr hxt, fun h => hxs (Or.inr h)⟩
        · rintro ⟨rfl | hxt, hxs⟩
          · exact absurd rfl hx
          · exact Or.inr ⟨hxt, fun h => hxs (by tauto)⟩

theorem mem_dedupFirst [DecidableEq α] (l : List α) (x : α) :
    x ∈ dedupFirst l ↔ x ∈ l := by
  simp [dedupFirst, mem_dedupAux]

theorem mem_pySetDiff [DecidableEq α] (a b : List α) (x : α) :
    x ∈ pySetDiff a b ↔ x ∈ a ∧ x ∉ b := by
  simp [pySetDiff, mem_dedupFirst, List.mem_filter]

theorem matchLit_eq (lit l : List Char) :
    matchLit lit l = if lit.isPrefixOf l then some (l.drop lit.length) else none := by
  induction lit generalizing l with
  | nil => simp [matchLit, List.isPrefixOf]
  | cons c cs ih =>
    cases l with
    | nil => simp [matchLit, List.isPrefixOf]
    | cons x xs =>
      simp only [matchLit, List.isPrefixOf, ih, List.length_cons, List.drop_succ_cons]
      by_cases h : x = c
      · subst h
        simp
      · simp [h, beq_false_of_ne h, beq_false_of_ne (Ne.symm h)]

/-- The regex match attempt coincides with the shape-based match whose
modifier grammar is `skin-tone-` followed by digits. -/
theorem matchEmojiAt_eq_spec (l : List Char) : matchEmojiAt l = specMatchAt modSkin l := by
  cases l with
  | nil => rfl
  | cons c rest =>
    by_cases hc : c = ':'
    · subst hc
      simp only [matchEmojiAt, specMatchAt, if_pos rfl, modSkin, matchLit_eq]
      by_cases hemp : (rest.takeWhile emojiChar).isEmpty
      · simp [hemp]
      · simp only [hemp, Bool.false_eq_true, ite_false]
        by_cases hpre : (':' :: ':' :: skinToneChars).isPrefixOf (rest.dropWhile emojiChar)
        · have hlen : (':' :: ':' :: skinToneChars).length = 12 := by decide
          simp only [hpre, if_true, hlen]
          by_cases hds : (((rest.dropWhile emojiChar).drop 12).takeWhile digitChar).isEmpty
          · simp [hds]
          · simp only [hds, Bool.false_eq_true, ite_false]
            cases hdw : ((rest.dropWhile emojiChar).drop 12).dropWhile digitChar with
            | nil => simp [hdw]
            | cons y ys =>
              by_cases hy : y = ':'
              · subst hy
                simp [hdw]
              · simp [hdw, hy]
        · simp [hpre]
    · simp [matchEmojiAt, specMatchAt, hc]

/-- The two scans agree step by step. -/
theorem findallF_eq_spec (n : Nat) (l : List Char) : findallF n l = specScanF modSkin n l := by
  induction n generalizing l with
  | zero => rfl
  | succ n ih =>
    cases l with
    | nil => rfl
    | cons c rest =>
      cases h : specMatchAt modSkin (c :: rest) with
      | none => simp [findallF, specScanF, matchEmojiAt_eq_spec, h, ih]
      | some p =>
        obtain ⟨m, r⟩ := p
        simp [findallF, specScanF, matchEmojiAt_eq_spec, h, ih]

/-! ## Sanity checks of the parser embedding against the repository's own
tests (`tests/test_internals.py`, `test_get_valid_reactions`). -/

theorem parse_sanity_repo_tests :
    parseChars ":smile: :wink:".toList = ["smile".toList, "wink".toList] ∧
    parseChars ":smile: :wink: :smile:".toList = ["smile".toList, "wink".toList] ∧
    parseChars ":face::skin-tone-2:".toList = ["face::skin-tone-2".toList] ∧
    parseChars ":smile::wink::face::skin-tone-2::face::skin-tone-3::laugh:".toList =
      ["smile".toList, "wink".toList, "face::skin-tone-2".toList,
        "face::skin-tone-3".toList, "laugh".toList] ∧
    parseChars "::::".toList = [] ∧
    parseChars "".toList = [] ∧
    parseChars "sometext:smile:anothertext:wink:moretext:laugh:endoftext".toList =
      ["smile".toList, "wink".toList, "laugh".toList] := by
  refine ⟨?_, ?_, ?_, ?_, ?_, ?_, ?_⟩ <;> decide

/-! ## Claim theorems -/

/-- C2 (counterexample): the claim's reference parser accepts an arbitrary
token as modifier, so on `":wave::dark:"` it produces the single code
`wave::dark`, while the program's parser — whose regex only allows
`skin-tone-` plus digits as modifier — produces the two codes `wave` and
`dark`.  The claim's equality therefore fails at this input. -/
theorem c2_modifier_grammar_counterexample :
    parseChars ":wave::dark:".toList = ["wave".toList, "dark".toList] ∧
    specParse modAny ":wave::dark:".toList = ["wave::dark".toList] := by
  constructor <;> decide

/-- C2 (amended): for every input text, `parse` equals the reference
left-to-right scan-and-deduplicate definition in which both token and
modifier range over the stated shapes, except that the modifier is not an
arbitrary token: it is exactly the literal `skin-tone-` followed by one or
more digits. -/
theorem c2_parse_eq_reference (text : List Char) : parseChars text = specParse modSkin text := by
  simp [parseChars, specParse, findallF_eq_spec]

/-- C1: the claim (and the repository's own tests) demand an age-based TTL
guard — refetch when no snapshot exists or the snapshot is older than 60
seconds — but the code in `internals.py` lines 154-158 guards only on the
background task being absent or done.  Evaluated at a state whose snapshot
is 120 seconds old but whose background task is alive, the spec-side guard
demands a synchronous fetch while the code performs none and returns the
stale snapshot unchanged. -/
theorem c1_ttl_guard_divergence :
    shouldFetchSpec 120 ⟨["123"], true, 0⟩ = true ∧
    getVocabulary 120 ["joy"] ⟨["123"], true, 0⟩ = (["123"], false, ⟨["123"], true, 0⟩) := by
  constructor <;> rfl

/-- C9: the pause between consecutive `reactions_add` calls in the async
handler is `(50+5)//60 = 0` seconds — integer division truncates to zero,
so the calls are issued with no pacing at all, contradicting the claimed
strictly positive delay; the legacy constant `(50-5)/60` (true division)
is the positive delay the comment intends. -/
theorem c9_zero_pacing_delay :
    tier3SleepHandlers = 0 ∧
    asyncApplyLoop (fun _ => ApplyResult.ok) (["a", "b"] : List String) =
      [ApplyEvent.callAdd "a", ApplyEvent.logOk "a", ApplyEvent.sleepSec 0,
        ApplyEvent.callAdd "b", ApplyEvent.logOk "b", ApplyEvent.sleepSec 0] ∧
    0 < tier3LimitSecLegacy := by
  refine ⟨rfl, rfl, ?_⟩
  norm_num [tier3LimitSecLegacy]

/-- C10: a persisted value that exists but is the empty string is treated
exactly like an absent value: the shortcut opens the "no reactions set"
dialog, issues zero reaction-query and zero reaction-apply calls, and
terminates. -/
theorem c10_empty_store_like_absent (outcome : List Char → ApplyResult)
    (used : List (List Char)) :
    addReactionsOp outcome used (some []) =
      { openedDialog := true, queryCalls := 0, applyEvents := [] } ∧
    addReactionsOp outcome used (some []) = addReactionsOp outcome used none := by
  constructor <;> rfl

/-- C4: the diff of the saved list against the already-applied set is
exactly the elements of `saved` not in `used`, in `saved`'s order (a
sublist of `saved`), with no duplicates beyond those of `saved` itself;
and when `used` covers all of `saved` the diff is empty and the apply loop
issues zero calls. -/
theorem c4_diff_characterisation {α : Type} [DecidableEq α] (saved used : List α)
    (outcome : α → ApplyResult) :
    diffReactions saved used = saved.filter (fun r => !decide (r ∈ used)) ∧
    (∀ r, r ∈ diffReactions saved used ↔ r ∈ saved ∧ r ∉ used) ∧
    List.Sublist (diffReactions saved used) saved ∧
    (∀ r, (diffReactions saved used).count r ≤ saved.count r) ∧
    ((∀ r ∈ saved, r ∈ used) → diffReactions saved used = [] ∧
      asyncApplyLoop outcome (diffReactions saved used) = []) := by
  have hfe : diffReactions saved used = saved.filter (fun r => !decide (r ∈ used)) := by
    unfold diffReactions
    apply List.filter_congr
    intro r hr
    by_cases hu : r ∈ used
    · simp [mem_pySetDiff, hu]
    · simp [mem_pySetDiff, hu, hr]
  have hsub : List.Sublist (diffReactions saved used) saved := by
    rw [hfe]; exact List.filter_sublist saved
  refine ⟨hfe, ?_, hsub, fun r => hsub.count_le r, ?_⟩
  · intro r
    rw [hfe]
    simp [List.mem_filter]
  · intro h
    have hnil : diffReactions saved used = [] := by
      rw [hfe]
      simp only [List.filter_eq_nil_iff]
      intro a ha
      simp [h a ha]
    exact ⟨hnil, by rw [hnil]; rfl⟩

/-- C4 witness: the spec's own example, and a fully covered save. -/
theorem c4_diff_witness :
    diffReactions (["a", "b", "c"] : List String) ["b"] = ["a", "c"] ∧
    diffReactions (["a", "b"] : List String) ["a", "b"] = [] ∧
    asyncApplyLoop (fun _ => ApplyResult.ok)
      (diffReactions (["a", "b"] : List String) ["a", "b"]) = [] := by
  have h := (c4_diff_characterisation (["a", "b"] : List String) ["a", "b"]
    (fun _ => ApplyResult.ok)).2.2.2.2 (by decide)
  exact ⟨by decide, h.1, h.2⟩

/-- C3: validation keeps a candidate exactly when its base (the part before
the first `::` for modified codes, the whole code otherwise) is in the
snapshot, silently dropping the rest: the result is the order-preserving
filter of the candidates, hence a sublist of them. -/
theorem c3_validate_characterisation (orig allE : List (List Char)) :
    validate orig allE =
      orig.filter (fun r =>
        if hasDoubleColon r then decide (baseOf r ∈ allE) else decide (r ∈ allE)) ∧
    List.Sublist (validate orig allE) orig := by
  have hfe : validate orig allE =
      orig.filter (fun r =>
        if hasDoubleColon r then decide (baseOf r ∈ allE) else decide (r ∈ allE)) := by
    unfold validate
    apply List.filter_congr
    intro r hr
    by_cases hd : hasDoubleColon r
    · simp [List.mem_append, List.mem_filter, hr, hd]
    · simp [List.mem_append, List.mem_filter, hr, hd]
  constructor
  · exact hfe
  · unfold validate
    exact List.filter_sublist orig

/-- C7 (counterexample): a vocabulary refresh whose primary `emoji_list`
call succeeds but whose third-party fetch fails with a timeout — an
exception that `internals.py` line 115 does not catch, being a subclass of
neither `ClientConnectorError` nor `ClientResponseError` — raises instead
of building a partial snapshot, so the claim's "network error, non-200
status, or timeout ... does not raise" is false for the timeout case. -/
theorem c7_timeout_counterexample :
    getReactionsInTeam (Except.ok ((["c"], ["b"]) : List String × List String))
      (SecondaryFetch.uncaught "asyncio.TimeoutError") =
      Except.error "asyncio.TimeoutError" := rfl

/-- C7 (amended): when the primary workspace `emoji_list` call succeeds and
the third-party standard-emoji fetch fails with a non-200 status or one of
the two caught exception types (`ClientConnectorError`,
`ClientResponseError`), the refresh does not raise and builds the snapshot
from the custom and built-in names alone (non-empty when those are); a
secondary-fetch timeout or other uncaught exception is not absorbed — it
propagates to the caller; and when the primary call fails, the error
propagates; in both raising cases a refresh attempt leaves the previous
snapshot in effect. -/
theorem c7_secondary_failure_policy (custom builtin : List String) (sec : SecondaryFetch)
    (e : String) (s : EmojiCacheState) (now : Nat)
    (hsec : sec = SecondaryFetch.badStatus ∨ sec = SecondaryFetch.connError) :
    (∃ l, getReactionsInTeam (Except.ok (custom, builtin)) sec = Except.ok l ∧
      (∀ x, x ∈ l ↔ x ∈ custom ++ builtin) ∧
      (custom ++ builtin ≠ [] → l ≠ [])) ∧
    (∀ ex, getReactionsInTeam (Except.ok (custom, builtin)) (SecondaryFetch.uncaught ex) =
      Except.error ex) ∧
    getReactionsInTeam (Except.error e) sec = Except.error e ∧
    refreshSnapshot s now (Except.error e) = s := by
  have hst : standardFrom sec = [] := by
    rcases hsec with h | h <;> simp [h, standardFrom]
  have hok : getReactionsInTeam (Except.ok (custom, builtin)) sec =
      Except.ok (dedupFirst (custom ++ builtin ++ standardFrom sec)) := by
    rcases hsec with h | h <;> subst h <;> rfl
  refine ⟨⟨dedupFirst (custom ++ builtin ++ standardFrom sec), hok, ?_, ?_⟩,
    fun ex => rfl, rfl, rfl⟩
  · intro x
    simp [mem_dedupFirst, hst]
  · intro hne
    obtain ⟨x, hx⟩ := List.exists_mem_of_ne_nil _ hne
    apply List.ne_nil_of_mem
    rw [mem_dedupFirst]
    rw [hst]
    simpa using hx

/-- C7 witness: a concrete refresh with a non-200 secondary source builds
the partial snapshot; a timeout propagates; a failing primary refresh
leaves the state alone. -/
theorem c7_secondary_failure_witness :
    getReactionsInTeam (Except.ok ((["c"], ["b"]) : List String × List String))
      SecondaryFetch.badStatus = Except.ok ["c", "b"] ∧
    getReactionsInTeam (Except.ok ((["c"], ["b"]) : List String × List String))
      (SecondaryFetch.uncaught "timeout") = Except.error "timeout" ∧
    refreshSnapshot ⟨["old"], true, 5⟩ 99 (Except.error "boom") = ⟨["old"], true, 5⟩ := by
  have h := c7_secondary_failure_policy ["c"] ["b"] SecondaryFetch.badStatus "boom"
    ⟨["old"], true, 5⟩ 99 (Or.inl rfl)
  exact ⟨rfl, h.2.1 "timeout", h.2.2.2⟩

/-- C8 (counterexample): in the legacy handler's loop (`main.py` lines
241-256) a `SlackApiError` other than `already_reacted` is re-raised, so
when the first of two reactions fails that way, the second is never
attempted — the claim's "never aborts the rest of the loop" fails there. -/
theorem c8_legacy_abort_counterexample :
    legacyApplyLoop (fun r => if r = "a" then ApplyResult.failed else ApplyResult.ok)
      (["a", "b"] : List String) = (["a"], some "a") := by
  decide

/-- C8 (amended): in the async handler every apply failure is caught and
logged and all calls are issued one per code, sequentially in diffed order
regardless of outcomes; in the legacy handler this holds only as long as no
failure other than `already_reacted` occurs (such a failure re-raises and
aborts the remaining calls). -/
theorem c8_apply_loop_behaviour {α : Type} (outcome : α → ApplyResult) (toReact : List α) :
    callsOf (asyncApplyLoop outcome toReact) = toReact ∧
    ((∀ r ∈ toReact, outcome r ≠ ApplyResult.failed) →
      legacyApplyLoop outcome toReact = (toReact, none)) := by
  constructor
  · induction toReact with
    | nil => rfl
    | cons r rest ih =>
      cases h : outcome r <;> simp [asyncApplyLoop, callsOf, h, ih]
  · intro h
    induction toReact with
    | nil => rfl
    | cons r rest ih =>
      have hr : outcome r ≠ ApplyResult.failed := h r (List.mem_cons_self r rest)
      have hrest := ih (fun x hx => h x (List.mem_cons_of_mem r hx))
      cases hout : outcome r <;> simp [legacyApplyLoop, hout, hrest]
      exact absurd hout hr

theorem splitSpace_no_space (w : List Char) (h : ∀ c ∈ w, c ≠ ' ') :
    splitSpace w = [w] := by
  induction w with
  | nil => rfl
  | cons c cs ih =>
    have hc : c ≠ ' ' := h c (List.mem_cons_self c cs)
    have ih' := ih (fun x hx => h x (List.mem_cons_of_mem c hx))
    simp [splitSpace, hc, ih']

theorem splitSpace_append_sep (w l : List Char) (h : ∀ c ∈ w, c ≠ ' ') :
    splitSpace (w ++ ' ' :: l) = w :: splitSpace l := by
  induction w with
  | nil => simp [splitSpace]
  | cons c cs ih =>
    have hc : c ≠ ' ' := h c (List.mem_cons_self c cs)
    have ih' := ih (fun x hx => h x (List.mem_cons_of_mem c hx))
    simp [splitSpace, hc, ih']

/-- Splitting on spaces undoes the space-join of a non-empty list of
non-empty, space-free words. -/
theorem splitSpace_joinSpace (codes : List (List Char)) (hne : codes ≠ [])
    (h : ∀ w ∈ codes, ∀ c ∈ w, c ≠ ' ') :
    splitSpace (joinSpace codes) = codes := by
  induction codes with
  | nil => exact absurd rfl hne
  | cons w ws ih =>
    cases ws with
    | nil =>
      simpa [joinSpace] using splitSpace_no_space w (h w (List.mem_cons_self w []))
    | cons w2 ws2 =>
      have hj : joinSpace (w :: w2 :: ws2) = w ++ ' ' :: joinSpace (w2 :: ws2) := rfl
      rw [hj, splitSpace_append_sep w _ (h w (List.mem_cons_self w (w2 :: ws2)))]
      rw [ih (by simp) (fun x hx => h x (List.mem_cons_of_mem w hx))]

theorem emojiChar_ne_space (c : Char) (h : emojiChar c = true) : c ≠ ' ' := by
  intro hc
  subst hc
  exact absurd h (by decide)

theorem digitChar_ne_space (c : Char) (h : digitChar c = true) : c ≠ ' ' := by
  intro hc
  subst hc
  exact absurd h (by decide)

theorem plainColonTail_shape (tok rest1 m r : List Char)
    (h : plainColonTail tok rest1 = some (m, r)) : m = ':' :: tok ++ [':'] := by
  cases rest1 with
  | nil => exact absurd h (by simp [plainColonTail])
  | cons y r2 =>
    by_cases hy : y = ':'
    · simp [plainColonTail, hy] at h
      exact h.1.symm
    · simp [plainColonTail, hy] at h

/-- Every successful regex match is a non-empty space-free body wrapped in
colons. -/
theorem matchEmojiAt_shape (l m r : List Char) (h : matchEmojiAt l = some (m, r)) :
    ∃ mid, mid ≠ [] ∧ (∀ c ∈ mid, c ≠ ' ') ∧ m = ':' :: mid ++ [':'] := by
  cases l with
  | nil => exact absurd h (by simp [matchEmojiAt])
  | cons c rest =>
    by_cases hc : c = ':'
    case neg => simp [matchEmojiAt, hc] at h
    subst hc
    rw [matchEmojiAt] at h
    rw [if_pos rfl] at h
    have htok : ∀ x ∈ rest.takeWhile emojiChar, x ≠ ' ' :=
      fun x hx => emojiChar_ne_space x (List.mem_takeWhile_imp hx)
    have hplain : ∀ m' r', plainColonTail (rest.takeWhile emojiChar)
        (rest.dropWhile emojiChar) = some (m', r') →
        (rest.takeWhile emojiChar) ≠ [] →
        ∃ mid, mid ≠ [] ∧ (∀ x ∈ mid, x ≠ ' ') ∧ m' = ':' :: mid ++ [':'] := by
      intro m' r' hp hne
      exact ⟨rest.takeWhile emojiChar, hne, htok, plainColonTail_shape _ _ _ _ hp⟩
    by_cases hemp : (rest.takeWhile emojiChar).isEmpty
    · rw [if_pos hemp] at h
      exact absurd h (by simp)
    · rw [if_neg hemp] at h
      have htokne : rest.takeWhile emojiChar ≠ [] := by
        intro h0
        rw [h0] at hemp
        exact hemp rfl
      cases hlit : matchLit (':' :: ':' :: skinToneChars) (rest.dropWhile emojiChar) with
      | none =>
        simp only [hlit] at h
        exact hplain m r h htokne
      | some r1 =>
        simp only [hlit] at h
        by_cases hds : (r1.takeWhile digitChar).isEmpty
        · rw [if_pos hds] at h
          exact hplain m r h htokne
        · rw [if_neg hds] at h
          cases hdw : r1.dropWhile digitChar with
          | nil =>
            simp only [hdw] at h
            exact hplain m r h htokne
          | cons y ys =>
            simp only [hdw] at h
            by_cases hy : y = ':'
            · rw [if_pos hy] at h
              have hm : m = ':' :: (rest.takeWhile emojiChar) ++
                  (':' :: ':' :: skinToneChars) ++ (r1.takeWhile digitChar) ++ [':'] := by
                have := (Option.some.injEq _ _).mp h
                exact (congrArg Prod.fst this).symm
              refine ⟨rest.takeWhile emojiChar ++ (':' :: ':' :: skinToneChars) ++
                r1.takeWhile digitChar, by simp [htokne], ?_, by simp [hm]⟩
              intro x hx
              rcases List.mem_append.mp hx with hx' | hxd
              · rcases List.mem_append.mp hx' with hxt | hxs
                · exact htok x hxt
                · have hno : ∀ z ∈ (':' :: ':' :: skinToneChars), z ≠ ' ' := by decide
                  exact hno x hxs
              · exact digitChar_ne_space x (List.mem_takeWhile_imp hxd)
            · rw [if_neg hy] at h
              exact hplain m r h htokne

/-- Every string emitted by the scan has the wrapped shape. -/
theorem findallF_shape (n : Nat) (l m : List Char) (hm : m ∈ findallF n l) :
    ∃ mid, mid ≠ [] ∧ (∀ c ∈ mid, c ≠ ' ') ∧ m = ':' :: mid ++ [':'] := by
  induction n generalizing l with
  | zero => simp [findallF] at hm
  | succ n ih =>
    cases l with
    | nil => simp [findallF] at hm
    | cons c rest =>
      cases hA : matchEmojiAt (c :: rest) with
      | none =>
        rw [findallF, hA] at hm
        exact ih rest hm
      | some p =>
        obtain ⟨m0, r⟩ := p
        rw [findallF, hA] at hm
        rcases List.mem_cons.mp hm with rfl | hm'
        · exact matchEmojiAt_shape _ _ _ hA
        · exact ih r hm'

/-- Every code produced by the parser is non-empty and space-free. -/
theorem parseChars_no_space (t c : List Char) (hc : c ∈ parseChars t) :
    c ≠ [] ∧ ∀ ch ∈ c, ch ≠ ' ' := by
  unfold parseChars at hc
  rcases List.mem_map.mp hc with ⟨m, hm, rfl⟩
  have hm' : m ∈ findallF t.length t := (mem_dedupFirst _ _).mp hm
  obtain ⟨mid, hne, hsp, rfl⟩ := findallF_shape _ _ _ hm'
  have hstrip : stripColons (':' :: mid ++ [':']) = mid := by
    simp [stripColons]
  rw [hstrip]
  exact ⟨hne, hsp⟩

/-- Every validated code is one of the parsed candidates, hence non-empty
and space-free. -/
theorem getValidReactions_no_space (snapshot : List (List Char)) (t c : List Char)
    (hc : c ∈ getValidReactions snapshot t) :
    c ≠ [] ∧ ∀ ch ∈ c, ch ≠ ' ' := by
  unfold getValidReactions validate at hc
  exact parseChars_no_space t c (List.mem_filter.mp hc).1

/-- C5: a save invocation whose text validates to more than 23 short-codes
is rejected with the "too many" message and the store is unchanged; one
validating to zero short-codes is rejected with the "invalid" message,
store unchanged. -/
theorem c5_save_rejections (snapshot : List (List Char)) (store : Option (List Char))
    (t : List Char) (hT : (pyStrip t).isEmpty = false) :
    (23 < (getValidReactions snapshot t).length →
      saveOrDisplay snapshot store (some t) = (store, CmdReply.tooMany)) ∧
    ((getValidReactions snapshot t).length = 0 →
      saveOrDisplay snapshot store (some t) = (store, CmdReply.invalid)) := by
  constructor
  · intro h
    simp [saveOrDisplay, hT, h]
  · intro h
    simp [saveOrDisplay, hT, h]

/-- C5 witness: 24 distinct valid single-letter codes are rejected as "too
many"; a text with no valid reaction is rejected as "invalid"; the stored
value (`none` here, arbitrary in the theorem) is unchanged both times. -/
theorem c5_save_rejections_witness :
    saveOrDisplay
      ["a".toList, "b".toList, "c".toList, "d".toList, "e".toList, "f".toList,
        "g".toList, "h".toList, "i".toList, "j".toList, "k".toList, "l".toList,
        "m".toList, "n".toList, "o".toList, "p".toList, "q".toList, "r".toList,
        "s".toList, "t".toList, "u".toList, "v".toList, "w".toList, "x".toList]
      none
      (some (":a: :b: :c: :d: :e: :f: :g: :h: :i: :j: :k: :l: :m: :n: :o: :p: " ++
        ":q: :r: :s: :t: :u: :v: :w: :x:").toList) = (none, CmdReply.tooMany) ∧
    saveOrDisplay ["a".toList] none (some ":zzz:".toList) = (none, CmdReply.invalid) := by
  have h1 := c5_save_rejections
    ["a".toList, "b".toList, "c".toList, "d".toList, "e".toList, "f".toList,
      "g".toList, "h".toList, "i".toList, "j".toList, "k".toList, "l".toList,
      "m".toList, "n".toList, "o".toList, "p".toList, "q".toList, "r".toList,
      "s".toList, "t".toList, "u".toList, "v".toList, "w".toList, "x".toList]
    none
    (":a: :b: :c: :d: :e: :f: :g: :h: :i: :j: :k: :l: :m: :n: :o: :p: " ++
      ":q: :r: :s: :t: :u: :v: :w: :x:").toList
    (by decide)
  have h2 := c5_save_rejections ["a".toList] none ":zzz:".toList (by decide)
  exact ⟨h1.1 (by decide), h2.2 (by decide)⟩

/-- C8 witness: all-failing outcomes still attempt every call in the async
loop; an `already_reacted`-only run completes the legacy loop. -/
theorem c8_apply_loop_witness :
    callsOf (asyncApplyLoop (fun _ => ApplyResult.failed) (["a", "b"] : List String)) =
      ["a", "b"] ∧
    legacyApplyLoop (fun _ => ApplyResult.alreadyReacted) (["a", "b"] : List String) =
      (["a", "b"], none) := by
  have h1 := c8_apply_loop_behaviour (fun _ => ApplyResult.failed) (["a", "b"] : List String)
  have h2 := c8_apply_loop_behaviour (fun _ => ApplyResult.alreadyReacted)
    (["a", "b"] : List String)
  exact ⟨h1.1, h2.2 (by decide)⟩

/-- C6: saving a validated list of between 1 and 23 codes persists the
space-joined string, and a subsequent display splits it back and renders
exactly the same codes in the same order, each wrapped in colons and
space-separated. -/
theorem c6_save_display_roundtrip (snapshot : List (List Char)) (store : Option (List Char))
    (t : List Char) (hT : (pyStrip t).isEmpty = false)
    (h1 : 1 ≤ (getValidReactions snapshot t).length)
    (h23 : (getValidReactions snapshot t).length ≤ 23) :
    saveOrDisplay snapshot store (some t) =
      (some (joinSpace (getValidReactions snapshot t)), CmdReply.savedOk) ∧
    saveOrDisplay snapshot (some (joinSpace (getValidReactions snapshot t))) none =
      (some (joinSpace (getValidReactions snapshot t)),
        CmdReply.current (joinSpace ((getValidReactions snapshot t).map
          (fun c => ':' :: c ++ [':'])))) := by
  have hA : ¬ 23 < (getValidReactions snapshot t).length := by omega
  have hB : ¬ (getValidReactions snapshot t).length = 0 := by omega
  constructor
  · simp [saveOrDisplay, hT, hA, hB]
  · have hsplit : splitSpace (joinSpace (getValidReactions snapshot t)) =
        getValidReactions snapshot t := by
      apply splitSpace_joinSpace
      · intro h0
        rw [h0] at h1
        simp at h1
      · intro w hw
        exact (getValidReactions_no_space snapshot t w hw).2
    simp [saveOrDisplay, displayReactions, renderDisplay, hsplit]

/-- C6 witness: saving `:wave: :smile:` against a matching vocabulary stores
`wave smile` and displaying it back renders `:wave: :smile:`. -/
theorem c6_save_display_witness :
    saveOrDisplay ["wave".toList, "smile".toList] none (some ":wave: :smile:".toList) =
      (some "wave smile".toList, CmdReply.savedOk) ∧
    saveOrDisplay ["wave".toList, "smile".toList] (some "wave smile".toList) none =
      (some "wave smile".toList, CmdReply.current ":wave: :smile:".toList) := by
  have h := c6_save_display_roundtrip ["wave".toList, "smile".toList] none
    ":wave: :smile:".toList (by decide) (by decide) (by decide)
  have e1 : joinSpace (getValidReactions ["wave".toList, "smile".toList]
      ":wave: :smile:".toList) = "wave smile".toList := by decide
  have e2 : joinSpace ((getValidReactions ["wave".toList, "smile".toList]
      ":wave: :smile:".toList).map (fun c => ':' :: c ++ [':'])) =
      ":wave: :smile:".toList := by decide
  rw [e1, e2] at h
  exact h

end MultiReact
